import Mathlib

/-!
Verification development for the IndustrialMonitor LoRa ingestion bridge
(`src/examples/lora-node/lora-node.ino` and the gateway sketch
`lora-gateway.ino`).  The node samples telemetry, rounds it to a fixed
decimal precision, serializes a compact JSON payload and transmits it;
the gateway parses the payload, enriches it with link metrics and its own
clock, and publishes the canonical reading to MQTT.

The embedding models the textual compact codec exactly: the serializer
mirrors the payload bytes built by `readAndTransmit` (ArduinoJson
`serializeJson` of a flat document holding one string and three decimal
numbers, with the standard two-character escapes for `"`, `\`, and the
five control characters ArduinoJson escapes), and the parser mirrors the
gateway-side `deserializeJson` on the flat documents the node produces
(objects whose values are strings, decimal numbers, `null`, `true` or
`false`; nested containers and `\u` escapes, which no compact payload
contains, are out of the modelled fragment).  Numbers are carried as an
exact pair (mantissa, decimal scale) denoting `mant / 10 ^ scale`, and
are converted to `ℚ` at the point where the gateway reads a field out of
the parsed document, mirroring ArduinoJson's conversion of a parsed
number to `float` / `int`.
-/

namespace IndustrialMonitor

/-- The character `{`, first byte of every compact payload. -/
def lbrace : Char := Char.ofNat 123

/-- The character `}`, last byte of every compact payload. -/
def rbrace : Char := Char.ofNat 125

/-- Value of a decimal digit character (`'0'` ↦ 0, …, `'9'` ↦ 9). -/
def charVal (c : Char) : ℕ := c.toNat - 48

/-- The decimal digit character for `d < 10`. -/
def digitChar (d : ℕ) : Char := Char.ofNat (48 + d)

/-- Decimal digits of `n`, most significant first; fuel-structured so that
the kernel can evaluate it (`natDigits` supplies sufficient fuel). -/
def natDigitsAux : ℕ → ℕ → List Char
  | 0, _ => []
  | fuel + 1, n =>
    if n < 10 then [digitChar n]
    else natDigitsAux fuel (n / 10) ++ [digitChar (n % 10)]

/-- Decimal digit string of a natural number (`0` prints as `"0"`). -/
def natDigits (n : ℕ) : List Char := natDigitsAux (n + 1) n

/-- Numeric value of a list of decimal digit characters, most significant
first. -/
def digitsVal : List Char → ℕ
  | [] => 0
  | c :: cs => charVal c * 10 ^ cs.length + digitsVal cs

/-- Longest digit run at the head of the input, and the remainder. -/
def takeDigits : List Char → List Char × List Char
  | [] => ([], [])
  | c :: cs =>
    if c.isDigit then
      let p := takeDigits cs
      (c :: p.1, p.2)
    else ([], c :: cs)

/-- `true` iff the input does not begin with a decimal digit. -/
def noLeadDigit : List Char → Bool
  | [] => true
  | c :: _ => !c.isDigit

/-- `true` iff the input cannot extend a decimal number literal (it does
not begin with a digit or a decimal point). -/
def numStop : List Char → Bool
  | [] => true
  | c :: _ => !c.isDigit && !(c = '.')

/-- Digits of `m` left-padded with `'0'` to width `s`: the fractional part
of a fixed-point decimal with `s` fractional digits. -/
def padDigits (m : ℕ) (s : ℕ) : List Char :=
  List.replicate (s - (natDigits m).length) '0' ++ natDigits m

/-- Remove trailing decimal zeros from the scaled value `n / 10 ^ s`:
returns `(n', s')` with `n' / 10 ^ s' = n / 10 ^ s` and either `s' = 0` or
`10 ∤ n'`.  ArduinoJson's float serializer prints the shortest such
form (`67.0` prints as `"67"`, `0.010` as `"0.01"`). -/
def trimNat : ℕ → ℕ → ℕ × ℕ
  | 0, n => (n, 0)
  | s + 1, n => if n % 10 = 0 then trimNat s (n / 10) else (n, s + 1)

/-- Decimal text of `n / 10 ^ s` for a natural scaled value: integer part,
then (when `s ≠ 0`) a point and exactly `s` fractional digits. -/
def printScaledNat (n : ℕ) (s : ℕ) : List Char :=
  if s = 0 then natDigits n
  else natDigits (n / 10 ^ s) ++ '.' :: padDigits (n % 10 ^ s) s

/-- Decimal text of `k / 10 ^ s` as ArduinoJson serializes the node's
rounded float fields: optional minus sign, then the trailing-zero-trimmed
fixed-point digits. -/
def printNum (k : ℤ) (s : ℕ) : List Char :=
  let p := trimNat s k.natAbs
  (if k < 0 then ['-'] else []) ++ printScaledNat p.1 p.2

/-- Two-character JSON escape produced by ArduinoJson's string serializer
for `"`, `\`, backspace, form feed, newline, carriage return and tab; all
other characters are emitted verbatim. -/
def escChar (c : Char) : List Char :=
  if c = '"' then ['\\', '"']
  else if c = '\\' then ['\\', '\\']
  else if c = '\x08' then ['\\', 'b']
  else if c = '\x0c' then ['\\', 'f']
  else if c = '\n' then ['\\', 'n']
  else if c = '\r' then ['\\', 'r']
  else if c = '\t' then ['\\', 't']
  else [c]

/-- JSON-escaped form of a character list. -/
def escapeList : List Char → List Char
  | [] => []
  | c :: cs => escChar c ++ escapeList cs

/-- Character denoted by a backslash escape in a JSON string (the escapes
the gateway's parser accepts); `none` rejects the input. -/
def unescChar (c : Char) : Option Char :=
  if c = '"' then some '"'
  else if c = '\\' then some '\\'
  else if c = '/' then some '/'
  else if c = 'b' then some '\x08'
  else if c = 'f' then some '\x0c'
  else if c = 'n' then some '\n'
  else if c = 'r' then some '\r'
  else if c = 't' then some '\t'
  else none

/-- Body of a JSON string after the opening quote: characters up to the
unescaped closing quote, with escapes resolved.  The flag records whether
the previous character was an unconsumed backslash. -/
def parseStrAux : Bool → List Char → Option (List Char × List Char)
  | _, [] => none
  | true, e :: rest =>
    match unescChar e, parseStrAux false rest with
    | some u, some p => some (u :: p.1, p.2)
    | _, _ => none
  | false, c :: rest =>
    if c = '"' then some ([], rest)
    else if c = '\\' then parseStrAux true rest
    else
      match parseStrAux false rest with
      | some p => some (c :: p.1, p.2)
      | none => none

/-- A parsed JSON scalar value.  Numbers are kept as the exact decimal
`mant / 10 ^ scale` that appeared in the payload text. -/
inductive JVal where
  | jstr (s : List Char)
  | jnum (mant : ℤ) (scale : ℕ)
  | jnull
  | jbool (b : Bool)
deriving DecidableEq

/-- Unsigned decimal number literal: digits, optionally a point and more
digits.  Returns the scaled pair and the remaining input. -/
def parseNumAbs (l : List Char) : Option ((ℤ × ℕ) × List Char) :=
  let p := takeDigits l
  if p.1 = [] then none
  else
    match p.2 with
    | [] => some (((digitsVal p.1 : ℕ), 0), [])
    | c :: r₂ =>
      if c = '.' then
        let q := takeDigits r₂
        if q.1 = [] then none
        else some (((digitsVal p.1 * 10 ^ q.1.length + digitsVal q.1 : ℕ), q.1.length), q.2)
      else some (((digitsVal p.1 : ℕ), 0), c :: r₂)

/-- Signed decimal number literal. -/
def parseNumber (l : List Char) : Option ((ℤ × ℕ) × List Char) :=
  match l with
  | [] => none
  | c :: l₁ =>
    if c = '-' then (parseNumAbs l₁).map fun p => ((-p.1.1, p.1.2), p.2)
    else parseNumAbs (c :: l₁)

/-- A JSON scalar: string, `null`, `true`, `false`, or a number. -/
def parseValue (l : List Char) : Option (JVal × List Char) :=
  match l with
  | [] => none
  | c :: rest =>
    if c = '"' then (parseStrAux false rest).map fun p => (JVal.jstr p.1, p.2)
    else if c = 'n' then
      match rest with
      | 'u' :: 'l' :: 'l' :: r => some (JVal.jnull, r)
      | _ => none
    else if c = 't' then
      match rest with
      | 'r' :: 'u' :: 'e' :: r => some (JVal.jbool true, r)
      | _ => none
    else if c = 'f' then
      match rest with
      | 'a' :: 'l' :: 's' :: 'e' :: r => some (JVal.jbool false, r)
      | _ => none
    else (parseNumber (c :: rest)).map fun p => (JVal.jnum p.1.1 p.1.2, p.2)

/-- Members of a JSON object after the opening brace: a `"key":value`
list separated by commas and closed by `}`.  The fuel argument only
bounds the recursion depth; `parseJson` passes the input length, which
always suffices since every member consumes at least one character. -/
def parseMembers : ℕ → List Char → Option (List (List Char × JVal) × List Char)
  | 0, _ => none
  | fuel + 1, l =>
    match l with
    | [] => none
    | c₀ :: r₀ =>
      if c₀ = '"' then
        match parseStrAux false r₀ with
        | none => none
        | some (key, r₁) =>
          match r₁ with
          | [] => none
          | c₁ :: r₂ =>
            if c₁ = ':' then
              match parseValue r₂ with
              | none => none
              | some (v, r₃) =>
                match r₃ with
                | [] => none
                | c₂ :: r₄ =>
                  if c₂ = ',' then
                    match parseMembers fuel r₄ with
                    | none => none
                    | some (ms, r₅) => some ((key, v) :: ms, r₅)
                  else if c₂ = rbrace then some ([(key, v)], r₄)
                  else none
            else none
      else none

/-- Gateway-side JSON parse (`deserializeJson` in `handleLoRaPacket`) on
the flat documents of the compact wire format: a brace-delimited object
of scalar members, with no bytes after the closing brace.  `none` is a
`DeserializationError`. -/
def parseJson (s : String) : Option (List (List Char × JVal)) :=
  match s.toList with
  | [] => none
  | c :: rest =>
    if c = lbrace then
      match rest with
      | [] => none
      | d :: r₁ =>
        if d = rbrace then (if r₁ = [] then some [] else none)
        else
          match parseMembers (d :: r₁).length (d :: r₁) with
          | some (ms, r) => if r = [] then some ms else none
          | none => none
    else none

/-- First member with the given key, as ArduinoJson's `doc[key]` lookup
(`null` variant when the key is absent). -/
def lookupMember : List (List Char × JVal) → List Char → Option JVal
  | [], _ => none
  | (k, v) :: rest, key => if k = key then some v else lookupMember rest key

/-- Key of the compact identity field `id`. -/
def idKey : List Char := ['i', 'd']

/-- Key of the compact temperature field `t`. -/
def tKey : List Char := ['t']

/-- Key of the compact vibration field `v`. -/
def vKey : List Char := ['v']

/-- Key of the compact rpm field `r`. -/
def rKey : List Char := ['r']

/-- `const char* machineId = rxDoc["id"]`: the string content when the
member is a string, and the null pointer (`none`) when the member is
absent, `null`, or not a string. -/
def getString (ms : List (List Char × JVal)) (key : List Char) : Option String :=
  match lookupMember ms key with
  | some (JVal.jstr s) => some (String.mk s)
  | _ => none

/-- `float x = rxDoc[key]`: the parsed number as an exact rational, and
`0.0` when the member is absent or not a number (ArduinoJson's default
conversion of the null variant). -/
def getFloat (ms : List (List Char × JVal)) (key : List Char) : ℚ :=
  match lookupMember ms key with
  | some (JVal.jnum m s) => (m : ℚ) / 10 ^ s
  | _ => 0

/-- `int x = rxDoc[key]`: the parsed number truncated toward zero, and
`0` when the member is absent or not a number. -/
def getInt (ms : List (List Char × JVal)) (key : List Char) : ℤ :=
  match lookupMember ms key with
  | some (JVal.jnum m s) => m.tdiv (10 ^ s)
  | _ => 0

/-- A sensor reading in the node's compact wire format: node identity,
temperature (°C), vibration magnitude (g), rotational speed (rpm). -/
structure CompactReading where
  id : String
  t : ℚ
  v : ℚ
  r : ℤ
deriving DecidableEq

/-- C `round`: round half away from zero, the rounding `readAndTransmit`
applies to the scaled sensor values. -/
def roundAway (q : ℚ) : ℤ := if q < 0 then -round (-q) else round q

/-- `round(temperature * 10) / 10.0`: temperature rounded to 1 decimal. -/
def roundTemp (t : ℚ) : ℚ := (roundAway (t * 10) : ℚ) / 10

/-- `round(vibration * 1000) / 1000.0`: vibration rounded to 3 decimals. -/
def roundVib (v : ℚ) : ℚ := (roundAway (v * 1000) : ℚ) / 1000

/-- The byte sequence `{"id":"…","t":…,"v":…,"r":…}` built from an
escaped identity and the three scaled decimal fields, exactly as
`serializeJson` lays out the node's compact document. -/
def buildPayloadList (id : List Char) (tk vk rk : ℤ) : List Char :=
  lbrace :: '"' :: 'i' :: 'd' :: '"' :: ':' :: '"' ::
    (escapeList id ++ '"' :: ',' :: '"' :: 't' :: '"' :: ':' ::
      (printNum tk 1 ++ ',' :: '"' :: 'v' :: '"' :: ':' ::
        (printNum vk 3 ++ ',' :: '"' :: 'r' :: '"' :: ':' ::
          (printNum rk 0 ++ [rbrace]))))

/-- Node-side encode step of `readAndTransmit` (`lora-node.ino` lines
121–130): round temperature to 1 decimal and vibration to 3 decimals,
then serialize the compact JSON document. -/
def encodeCompact (rd : CompactReading) : String :=
  String.mk (buildPayloadList rd.id.toList
    (roundAway (rd.t * 10)) (roundAway (rd.v * 1000)) rd.r)

/-- Decode failures of the gateway's decode/validate step. -/
inductive DecodeError where
  | MalformedPayload
  | MissingIdentity
deriving DecidableEq

/-- Gateway decode/validate step of `handleLoRaPacket` (gateway sketch
lines 170–189): JSON-parse the payload (parse error → packet discarded),
read the four compact fields with ArduinoJson's defaulting conversions,
and discard the packet when the identity pointer is null. -/
def gatewayDecode (payload : String) : Except DecodeError CompactReading :=
  match parseJson payload with
  | none => Except.error DecodeError.MalformedPayload
  | some ms =>
    match getString ms idKey with
    | none => Except.error DecodeError.MissingIdentity
    | some mid =>
      Except.ok { id := mid, t := getFloat ms tKey, v := getFloat ms vKey, r := getInt ms rKey }

/-- A canonical reading as the gateway publishes it: the compact fields
plus gateway-assigned timestamp and per-packet link metrics. -/
structure CanonicalReading where
  machine_id : String
  timestamp : ℕ
  temperature : ℚ
  vibration : ℚ
  rpm : ℤ
  rssi : ℤ
  snr : ℚ
deriving DecidableEq

/-- Enrichment (gateway sketch lines 191–199): the canonical document is
built from the decoded compact reading, the packet's RSSI and SNR, and
`millis() / 1000`, the gateway's own clock at handling time. -/
def enrich (rd : CompactReading) (rssi : ℤ) (snr : ℚ) (nowMs : ℕ) : CanonicalReading :=
  { machine_id := rd.id, timestamp := nowMs / 1000, temperature := rd.t,
    vibration := rd.v, rpm := rd.r, rssi := rssi, snr := snr }

/-- The configured topic prefix, source constant `MQTT_TOPIC_PREFIX`
(gateway sketch line 33): note it already ends in `/`. -/
def topicRootCfg : String := "factory/"

/-- Topic derivation (gateway sketch lines 206–207):
`snprintf(topic, sizeof(topic), "%s%s", MQTT_TOPIC_PREFIX, machineId)`
into a fixed `char topic[64]`, hence truncation to 63 characters. -/
def topicOf (machineId : String) : String :=
  String.mk ((topicRootCfg ++ machineId).toList.take 63)

/-- One full handling of a received packet (`handleLoRaPacket`): decode,
and on success produce the publish call's topic and canonical payload;
on failure return without publishing. -/
def handleLoRaPacket (payload : String) (rssi : ℤ) (snr : ℚ) (nowMs : ℕ) :
    Option (String × CanonicalReading) :=
  match gatewayDecode payload with
  | Except.error _ => none
  | Except.ok rd => some (topicOf rd.id, enrich rd rssi snr nowMs)

/-- Gateway session state: the MQTT client's connection flag and the
sequence of publish calls issued so far. -/
structure GwState where
  connected : Bool
  published : List (String × CanonicalReading)
deriving DecidableEq

/-- `true` iff some `mqttClient.connect` attempt in the list succeeds:
`reconnectMQTT` (gateway sketch lines 133–146) loops, sleeping 5 s after
each failure, until an attempt succeeds — it returns exactly when this
predicate holds of the attempt results the environment supplies. -/
def connectRetries : List Bool → Bool
  | [] => false
  | a :: rest => a || connectRetries rest

/-- Environment of a single `loop()` iteration: whether the established
connection is still up at the top of the loop, the results of the connect
attempts `reconnectMQTT` would make, packets arriving while the loop is
blocked inside `reconnectMQTT` (the radio is not polled, so they are
never seen), and the packet `LoRa.parsePacket` returns afterwards, with
its link metrics and the clock reading. -/
structure LoopInput where
  stillUp : Bool
  attempts : List Bool
  missed : List String
  pkt : Option String
  rssi : ℤ
  snr : ℚ
  nowMs : ℕ

/-- Packet-handling half of `loop()`: poll the radio once and run
`handleLoRaPacket`, recording the publish call if one is issued. -/
def handlePkt (st : GwState) (inp : LoopInput) : GwState :=
  match inp.pkt with
  | none => st
  | some payload =>
    match handleLoRaPacket payload inp.rssi inp.snr inp.nowMs with
    | none => st
    | some pub => { st with published := st.published ++ [pub] }

/-- One iteration of the gateway `loop()` (gateway sketch lines 75–89):
if the MQTT connection is down, block in `reconnectMQTT` until an attempt
succeeds — `none` when no supplied attempt succeeds, modelling that the
loop body never completes and the radio is never polled again — then
poll the radio and handle at most one packet. -/
def loopIter (st : GwState) (inp : LoopInput) : Option GwState :=
  if st.connected && inp.stillUp then
    some (handlePkt { st with connected := true } inp)
  else if connectRetries inp.attempts then
    some (handlePkt { st with connected := true } inp)
  else none

/-- Run of successive `loop()` iterations; a blocked iteration freezes
the session state forever (no later input is processed). -/
def runLoop (st : GwState) : List LoopInput → GwState
  | [] => st
  | inp :: rest =>
    match loopIter st inp with
    | none => st
    | some st' => runLoop st' rest

/-- The node's configured identity, source constant `MACHINE_ID`. -/
def machineIdCfg : String := "lathe_01"

/-- Observable actions of one node boot cycle. -/
inductive NodeAction where
  | sample
  | encode
  | transmit
  | sleep
  | restart
deriving DecidableEq

/-- One node boot (`setup()` in `lora-node.ino`): `setupLoRa` checks
`LoRa.begin`; on failure it delays and calls `ESP.restart()`, so neither
`readAndTransmit` nor `enterDeepSleep` runs; on success the node samples,
encodes, transmits the compact payload (with best-effort result
`sendOk`), and deep-sleeps. -/
def nodeBoot (radioInitOk : Bool) (t v : ℚ) (r : ℤ) (sendOk : Bool) :
    List NodeAction × Option (String × Bool) :=
  if radioInitOk then
    ([NodeAction.sample, NodeAction.encode, NodeAction.transmit, NodeAction.sleep],
      some (encodeCompact { id := machineIdCfg, t := t, v := v, r := r }, sendOk))
  else ([NodeAction.restart], none)

/-- Mantissa of the trailing-zero-trimmed decimal text of `k / 10 ^ s`,
as the gateway's number parser recovers it. -/
def numMant (k : ℤ) (s : ℕ) : ℤ :=
  if k < 0 then -((trimNat s k.natAbs).1 : ℤ) else ((trimNat s k.natAbs).1 : ℤ)

/-- Scale of the trailing-zero-trimmed decimal text of `k / 10 ^ s`. -/
def numScale (k : ℤ) (s : ℕ) : ℕ := (trimNat s k.natAbs).2

/-- The compact payload of the spec's end-to-end scenario. -/
def samplePayload : String := "\x7b\"id\":\"lathe_01\",\"t\":67.3,\"v\":0.012,\"r\":3200\x7d"

/-- The compact reading whose encoding is `samplePayload`. -/
def sampleReading : CompactReading :=
  { id := "lathe_01", t := 673 / 10, v := 3 / 250, r := 3200 }

/-- A compact payload whose identity field is present but empty. -/
def emptyIdPayload : String := "\x7b\"id\":\"\",\"t\":67.3,\"v\":0.012,\"r\":3200\x7d"

/-- The compact payload of the spec's missing-identity scenario. -/
def missingIdPayload : String := "\x7b\"t\":67.3,\"v\":0.012,\"r\":3200\x7d"

/-- A syntactically valid payload carrying only an identity field. -/
def bareIdPayload : String := "\x7b\"id\":\"x\"\x7d"

/-- Loop-iteration input for a healthy connection: one polled packet, no
reconnection activity. -/
def pktInput (p : Option String) (rssi : ℤ) (snr : ℚ) (nowMs : ℕ) : LoopInput :=
  { stillUp := true, attempts := [], missed := [], pkt := p, rssi := rssi,
    snr := snr, nowMs := nowMs }

/-- Loop-iteration input in which the connection is down, every connect
attempt fails, and a well-formed packet arrives during the retries. -/
def blockedInput : LoopInput :=
  { stillUp := false, attempts := [false, false, false], missed := [samplePayload],
    pkt := some samplePayload, rssi := -45, snr := 19 / 2, nowMs := 12000 }

/-- Loop-iteration input in which the connection is down and the second
connect attempt succeeds; the packet polled afterwards is well-formed. -/
def reconnectInput : LoopInput :=
  { stillUp := false, attempts := [false, true], missed := [], pkt := some samplePayload,
    rssi := -45, snr := 19 / 2, nowMs := 12000 }

/-- A machine identity long enough to overflow the 64-byte topic buffer. -/
def longId : String := String.mk (List.replicate 60 'a')

theorem charVal_digitChar (d : ℕ) (h : d < 10) : charVal (digitChar d) = d := by
  interval_cases d <;> decide

theorem isDigit_digitChar (d : ℕ) (h : d < 10) : (digitChar d).isDigit = true := by
  interval_cases d <;> decide

theorem digitsVal_append (l : List Char) (c : Char) :
    digitsVal (l ++ [c]) = 10 * digitsVal l + charVal c := by
  induction l with
  | nil => simp [digitsVal]
  | cons d l ih =>
    have hlen : (l ++ [c]).length = l.length + 1 := by simp
    calc digitsVal ((d :: l) ++ [c])
        = charVal d * 10 ^ (l ++ [c]).length + digitsVal (l ++ [c]) := rfl
      _ = charVal d * 10 ^ (l.length + 1) + (10 * digitsVal l + charVal c) := by
          rw [hlen, ih]
      _ = 10 * (charVal d * 10 ^ l.length + digitsVal l) + charVal c := by ring
      _ = 10 * digitsVal (d :: l) + charVal c := rfl

theorem digitsVal_natDigitsAux :
    ∀ fuel n, n < fuel → digitsVal (natDigitsAux fuel n) = n := by
  intro fuel
  induction fuel with
  | zero => intro n h; omega
  | succ fuel ih =>
    intro n h
    by_cases h10 : n < 10
    · simp [natDigitsAux, h10, digitsVal, charVal_digitChar n h10]
    · have hn : 0 < n := by omega
      have hrec : n / 10 < fuel :=
        lt_of_lt_of_le (Nat.div_lt_self hn (by norm_num)) (by omega)
      have hmod : n % 10 < 10 := Nat.mod_lt n (by norm_num)
      simp only [natDigitsAux, if_neg h10, digitsVal_append, ih _ hrec,
        charVal_digitChar _ hmod]
      omega

theorem digitsVal_natDigits (n : ℕ) : digitsVal (natDigits n) = n :=
  digitsVal_natDigitsAux (n + 1) n (by omega)

theorem mem_natDigitsAux :
    ∀ fuel n c, c ∈ natDigitsAux fuel n → c.isDigit = true := by
  intro fuel
  induction fuel with
  | zero => intro n c hc; simp [natDigitsAux] at hc
  | succ fuel ih =>
    intro n c hc
    by_cases h10 : n < 10
    · simp [natDigitsAux, h10] at hc
      subst hc
      exact isDigit_digitChar _ h10
    · simp only [natDigitsAux, if_neg h10, List.mem_append, List.mem_singleton] at hc
      rcases hc with hc | hc
      · exact ih _ _ hc
      · subst hc
        exact isDigit_digitChar _ (Nat.mod_lt n (by norm_num))

theorem mem_natDigits (n : ℕ) (c : Char) (h : c ∈ natDigits n) : c.isDigit = true :=
  mem_natDigitsAux (n + 1) n c h

theorem natDigitsAux_ne_nil (fuel n : ℕ) (h : 0 < fuel) : natDigitsAux fuel n ≠ [] := by
  cases fuel with
  | zero => omega
  | succ fuel => by_cases h10 : n < 10 <;> simp [natDigitsAux, h10]

theorem natDigits_ne_nil (n : ℕ) : natDigits n ≠ [] :=
  natDigitsAux_ne_nil (n + 1) n (by omega)

theorem length_natDigitsAux_le :
    ∀ fuel n s, n < fuel → 1 ≤ s → n < 10 ^ s → (natDigitsAux fuel n).length ≤ s := by
  intro fuel
  induction fuel with
  | zero => intro n s h; omega
  | succ fuel ih =>
    intro n s hnf hs hpow
    by_cases h10 : n < 10
    · simp [natDigitsAux, h10]
      omega
    · have hs2 : 2 ≤ s := by
        by_contra hcon
        have h1 : s = 1 := by omega
        subst h1
        simp at hpow
        omega
      have hrec : n / 10 < fuel :=
        lt_of_lt_of_le (Nat.div_lt_self (by omega) (by norm_num)) (by omega)
      have hsplit : 10 ^ s = 10 ^ (s - 1) * 10 := by
        rw [← pow_succ]
        congr 1
        omega
      have hp : n / 10 < 10 ^ (s - 1) := by
        rw [Nat.div_lt_iff_lt_mul (by norm_num)]
        omega
      have := ih (n / 10) (s - 1) hrec (by omega) hp
      simp only [natDigitsAux, if_neg h10, List.length_append, List.length_cons,
        List.length_nil]
      omega

theorem length_natDigits_le (n s : ℕ) (hs : 1 ≤ s) (h : n < 10 ^ s) :
    (natDigits n).length ≤ s :=
  length_natDigitsAux_le (n + 1) n s (by omega) hs h

theorem noLead_of_numStop (rest : List Char) (h : numStop rest = true) :
    noLeadDigit rest = true := by
  cases rest with
  | nil => rfl
  | cons c cs =>
    simp only [numStop, Bool.and_eq_true] at h
    simp [noLeadDigit, h.1]

theorem takeDigits_append :
    ∀ dl rest, (∀ c ∈ dl, c.isDigit = true) → noLeadDigit rest = true →
      takeDigits (dl ++ rest) = (dl, rest) := by
  intro dl
  induction dl with
  | nil =>
    intro rest _ hr
    cases rest with
    | nil => rfl
    | cons c cs =>
      simp only [noLeadDigit, Bool.not_eq_true'] at hr
      simp [takeDigits, hr]
  | cons d dl ih =>
    intro rest hd hr
    have hdd : d.isDigit = true := hd d (by simp)
    simp [takeDigits, hdd, ih rest (fun c hc => hd c (by simp [hc])) hr]

theorem digitsVal_replicate (z : ℕ) (l : List Char) :
    digitsVal (List.replicate z '0' ++ l) = digitsVal l := by
  induction z with
  | zero => simp
  | succ z ih =>
    have hc : charVal '0' = 0 := by decide
    simp [List.replicate_succ, digitsVal, ih, hc]

theorem length_padDigits (m s : ℕ) (h : (natDigits m).length ≤ s) :
    (padDigits m s).length = s := by
  simp only [padDigits, List.length_append, List.length_replicate]
  omega

theorem digitsVal_padDigits (m s : ℕ) : digitsVal (padDigits m s) = m := by
  rw [padDigits, digitsVal_replicate, digitsVal_natDigits]

theorem mem_padDigits (m s : ℕ) (c : Char) (hc : c ∈ padDigits m s) :
    c.isDigit = true := by
  simp only [padDigits, List.mem_append] at hc
  rcases hc with hc | hc
  · have := List.eq_of_mem_replicate hc
    subst this
    decide
  · exact mem_natDigits _ _ hc

theorem trimNat_spec :
    ∀ s n, (trimNat s n).2 ≤ s ∧ (trimNat s n).1 * 10 ^ (s - (trimNat s n).2) = n := by
  intro s
  induction s with
  | zero => intro n; simp [trimNat]
  | succ s ih =>
    intro n
    by_cases h : n % 10 = 0
    · obtain ⟨ht, hv⟩ := ih (n / 10)
      have hgoal : trimNat (s + 1) n = trimNat s (n / 10) := by
        simp [trimNat, h]
      rw [hgoal]
      refine ⟨by omega, ?_⟩
      have h2 : s + 1 - (trimNat s (n / 10)).2 = (s - (trimNat s (n / 10)).2) + 1 := by
        omega
      rw [h2, pow_succ, ← mul_assoc, hv]
      omega
    · simp [trimNat, h]

theorem trimNat_ratio (s n : ℕ) :
    (((trimNat s n).1 : ℚ)) / 10 ^ (trimNat s n).2 = (n : ℚ) / 10 ^ s := by
  obtain ⟨hle, hval⟩ := trimNat_spec s n
  have key : ((trimNat s n).1 : ℚ) * 10 ^ s = (n : ℚ) * 10 ^ (trimNat s n).2 := by
    calc ((trimNat s n).1 : ℚ) * 10 ^ s
        = ((trimNat s n).1 : ℚ) * (10 ^ (s - (trimNat s n).2) * 10 ^ (trimNat s n).2) := by
          have hst : s - (trimNat s n).2 + (trimNat s n).2 = s := by omega
          rw [← pow_add, hst]
      _ = (((trimNat s n).1 * 10 ^ (s - (trimNat s n).2) : ℕ) : ℚ) * 10 ^ (trimNat s n).2 := by
          push_cast
          ring
      _ = (n : ℚ) * 10 ^ (trimNat s n).2 := by rw [hval]
  rw [div_eq_div_iff (by positivity) (by positivity)]
  exact key

theorem parseNumAbs_print (n s : ℕ) (rest : List Char) (hr : numStop rest = true) :
    parseNumAbs (printScaledNat n s ++ rest) = some (((n : ℤ), s), rest) := by
  by_cases hs : s = 0
  · subst hs
    have hp : printScaledNat n 0 = natDigits n := by simp [printScaledNat]
    have ht : takeDigits (natDigits n ++ rest) = (natDigits n, rest) :=
      takeDigits_append _ _ (fun c hc => mem_natDigits n c hc) (noLead_of_numStop rest hr)
    rw [hp]
    simp only [parseNumAbs, ht]
    rw [if_neg (natDigits_ne_nil n)]
    cases rest with
    | nil => simp [digitsVal_natDigits]
    | cons c cs =>
      simp only [numStop, Bool.and_eq_true, Bool.not_eq_true'] at hr
      have hcdot : ¬(c = '.') := by simpa using hr.2
      simp [hcdot, digitsVal_natDigits]
  · have hs1 : 1 ≤ s := by omega
    have hlt : n % 10 ^ s < 10 ^ s := Nat.mod_lt _ (by positivity)
    have hlen : (padDigits (n % 10 ^ s) s).length = s :=
      length_padDigits _ _ (length_natDigits_le _ _ hs1 hlt)
    have hp : printScaledNat n s
        = natDigits (n / 10 ^ s) ++ '.' :: padDigits (n % 10 ^ s) s := by
      simp [printScaledNat, hs]
    have hassoc : (natDigits (n / 10 ^ s) ++ '.' :: padDigits (n % 10 ^ s) s) ++ rest
        = natDigits (n / 10 ^ s) ++ ('.' :: (padDigits (n % 10 ^ s) s ++ rest)) := by
      simp
    have ht1 : takeDigits (natDigits (n / 10 ^ s)
          ++ ('.' :: (padDigits (n % 10 ^ s) s ++ rest)))
        = (natDigits (n / 10 ^ s), '.' :: (padDigits (n % 10 ^ s) s ++ rest)) :=
      takeDigits_append _ _ (fun c hc => mem_natDigits _ c hc) rfl
    have ht2 : takeDigits (padDigits (n % 10 ^ s) s ++ rest)
        = (padDigits (n % 10 ^ s) s, rest) :=
      takeDigits_append _ _ (fun c hc => mem_padDigits _ _ c hc) (noLead_of_numStop rest hr)
    have hpadne : padDigits (n % 10 ^ s) s ≠ [] := by
      intro hnil
      rw [hnil] at hlen
      simp at hlen
      omega
    have hdm : n / 10 ^ s * 10 ^ s + n % 10 ^ s = n := by
      have h := Nat.div_add_mod n (10 ^ s)
      rw [Nat.mul_comm] at h
      exact h
    rw [hp, hassoc]
    simp only [parseNumAbs, ht1, ht2, if_true]
    rw [if_neg (natDigits_ne_nil _)]
    rw [if_neg hpadne, hlen, digitsVal_padDigits, digitsVal_natDigits, hdm]

theorem printScaledNat_cons (n s : ℕ) :
    ∃ c t, printScaledNat n s = c :: t ∧ c.isDigit = true := by
  by_cases hs : s = 0
  · subst hs
    have hp : printScaledNat n 0 = natDigits n := by simp [printScaledNat]
    cases h : natDigits n with
    | nil => exact absurd h (natDigits_ne_nil n)
    | cons c t =>
      refine ⟨c, t, by rw [hp, h], mem_natDigits n c ?_⟩
      rw [h]
      exact List.mem_cons_self c t
  · have hp : printScaledNat n s
        = natDigits (n / 10 ^ s) ++ '.' :: padDigits (n % 10 ^ s) s := by
      simp [printScaledNat, hs]
    cases h : natDigits (n / 10 ^ s) with
    | nil => exact absurd h (natDigits_ne_nil _)
    | cons c t =>
      refine ⟨c, t ++ '.' :: padDigits (n % 10 ^ s) s, by rw [hp, h]; rfl,
        mem_natDigits (n / 10 ^ s) c ?_⟩
      rw [h]
      exact List.mem_cons_self c t

theorem printNum_cons (k : ℤ) (s : ℕ) :
    ∃ c t, printNum k s = c :: t ∧ (c = '-' ∨ c.isDigit = true) := by
  obtain ⟨c, t, hct, hcd⟩ := printScaledNat_cons (trimNat s k.natAbs).1 (trimNat s k.natAbs).2
  by_cases hk : k < 0
  · exact ⟨'-', printScaledNat (trimNat s k.natAbs).1 (trimNat s k.natAbs).2,
      by simp [printNum, hk], Or.inl rfl⟩
  · exact ⟨c, t, by simp [printNum, hk, hct], Or.inr hcd⟩

theorem parseNumber_print (k : ℤ) (s : ℕ) (rest : List Char) (hr : numStop rest = true) :
    parseNumber (printNum k s ++ rest) = some ((numMant k s, numScale k s), rest) := by
  by_cases hk : k < 0
  · have hp : printNum k s
        = '-' :: printScaledNat (trimNat s k.natAbs).1 (trimNat s k.natAbs).2 := by
      simp [printNum, hk]
    rw [hp]
    show parseNumber ('-' :: (printScaledNat _ _ ++ rest)) = _
    simp only [parseNumber, if_true]
    rw [parseNumAbs_print _ _ _ hr]
    simp [numMant, numScale, hk]
  · obtain ⟨c, t, hct, hcd⟩ := printScaledNat_cons (trimNat s k.natAbs).1 (trimNat s k.natAbs).2
    have hp : printNum k s = printScaledNat (trimNat s k.natAbs).1 (trimNat s k.natAbs).2 := by
      simp [printNum, hk]
    have hcne : c ≠ '-' := by
      intro hcc
      subst hcc
      exact absurd hcd (by decide)
    rw [hp, hct]
    show parseNumber (c :: (t ++ rest)) = _
    simp only [parseNumber, if_neg hcne]
    rw [show c :: (t ++ rest) = (c :: t) ++ rest from rfl, ← hct, parseNumAbs_print _ _ _ hr]
    simp [numMant, numScale, hk]

theorem numMant_ratio (k : ℤ) (s : ℕ) :
    ((numMant k s : ℤ) : ℚ) / 10 ^ numScale k s = (k : ℚ) / 10 ^ s := by
  unfold numMant numScale
  by_cases hk : k < 0
  · rw [if_pos hk]
    push_cast
    rw [neg_div, trimNat_ratio]
    have h1 : (k.natAbs : ℤ) = -k := by omega
    have hcast : ((k.natAbs : ℚ)) = -(k : ℚ) := by
      calc ((k.natAbs : ℚ)) = (((k.natAbs : ℤ)) : ℚ) := (Int.cast_natCast _).symm
        _ = ((-k : ℤ) : ℚ) := by rw [h1]
        _ = -(k : ℚ) := by push_cast; ring
    rw [hcast, neg_div, neg_neg]
  · rw [if_neg hk]
    push_cast
    rw [trimNat_ratio]
    have h1 : (k.natAbs : ℤ) = k := by omega
    have hcast : ((k.natAbs : ℚ)) = (k : ℚ) := by
      calc ((k.natAbs : ℚ)) = (((k.natAbs : ℤ)) : ℚ) := (Int.cast_natCast _).symm
        _ = (k : ℚ) := by rw [h1]
    rw [hcast]

theorem numMant_zero (k : ℤ) : numMant k 0 = k ∧ numScale k 0 = 0 := by
  unfold numMant numScale
  have h0 : trimNat 0 k.natAbs = (k.natAbs, 0) := rfl
  rw [h0]
  refine ⟨?_, rfl⟩
  by_cases hk : k < 0
  · rw [if_pos hk]
    omega
  · rw [if_neg hk]
    omega

theorem parseStrAux_escChar (c : Char) (k : List Char) (p : List Char × List Char)
    (h : parseStrAux false k = some p) :
    parseStrAux false (escChar c ++ k) = some (c :: p.1, p.2) := by
  by_cases h1 : c = '"'
  · subst h1
    rw [show escChar '"' = ['\\', '"'] from by decide]
    show parseStrAux false ('\\' :: '"' :: k) = _
    simp [parseStrAux, unescChar, h]
  · by_cases h2 : c = '\\'
    · subst h2
      rw [show escChar '\\' = ['\\', '\\'] from by decide]
      show parseStrAux false ('\\' :: '\\' :: k) = _
      simp [parseStrAux, unescChar, h]
    · by_cases h3 : c = '\x08'
      · subst h3
        rw [show escChar '\x08' = ['\\', 'b'] from by decide]
        show parseStrAux false ('\\' :: 'b' :: k) = _
        simp [parseStrAux, unescChar, h]
      · by_cases h4 : c = '\x0c'
        · subst h4
          rw [show escChar '\x0c' = ['\\', 'f'] from by decide]
          show parseStrAux false ('\\' :: 'f' :: k) = _
          simp [parseStrAux, unescChar, h]
        · by_cases h5 : c = '\n'
          · subst h5
            rw [show escChar '\n' = ['\\', 'n'] from by decide]
            show parseStrAux false ('\\' :: 'n' :: k) = _
            simp [parseStrAux, unescChar, h]
          · by_cases h6 : c = '\r'
            · subst h6
              rw [show escChar '\r' = ['\\', 'r'] from by decide]
              show parseStrAux false ('\\' :: 'r' :: k) = _
              simp [parseStrAux, unescChar, h]
            · by_cases h7 : c = '\t'
              · subst h7
                rw [show escChar '\t' = ['\\', 't'] from by decide]
                show parseStrAux false ('\\' :: 't' :: k) = _
                simp [parseStrAux, unescChar, h]
              · have he : escChar c = [c] := by
                  simp [escChar, h1, h2, h3, h4, h5, h6, h7]
                rw [he]
                show parseStrAux false (c :: k) = _
                simp [parseStrAux, h1, h2, h]

theorem parseStrAux_escape : ∀ (s rest : List Char),
    parseStrAux false (escapeList s ++ '"' :: rest) = some (s, rest) := by
  intro s
  induction s with
  | nil =>
    intro rest
    show parseStrAux false ('"' :: rest) = some ([], rest)
    simp [parseStrAux]
  | cons c s ih =>
    intro rest
    have hsplit : escapeList (c :: s) ++ '"' :: rest
        = escChar c ++ (escapeList s ++ '"' :: rest) := by
      simp [escapeList]
    rw [hsplit]
    exact parseStrAux_escChar c _ _ (ih rest)

theorem parseValue_string (s rest : List Char) :
    parseValue ('"' :: (escapeList s ++ '"' :: rest)) = some (JVal.jstr s, rest) := by
  have h : parseValue ('"' :: (escapeList s ++ '"' :: rest))
      = (parseStrAux false (escapeList s ++ '"' :: rest)).map
          fun p => (JVal.jstr p.1, p.2) := by
    simp [parseValue]
  rw [h, parseStrAux_escape]
  rfl

theorem parseValue_eq_parseNumber (c : Char) (l : List Char)
    (h1 : c ≠ '"') (h2 : c ≠ 'n') (h3 : c ≠ 't') (h4 : c ≠ 'f') :
    parseValue (c :: l)
      = (parseNumber (c :: l)).map fun p => (JVal.jnum p.1.1 p.1.2, p.2) := by
  simp only [parseValue, if_neg h1, if_neg h2, if_neg h3, if_neg h4]

theorem parseValue_num (k : ℤ) (s : ℕ) (rest : List Char) (hr : numStop rest = true) :
    parseValue (printNum k s ++ rest)
      = some (JVal.jnum (numMant k s) (numScale k s), rest) := by
  obtain ⟨c, t, hct, hc⟩ := printNum_cons k s
  have hd1 : c ≠ '"' := by
    rcases hc with h | h
    · subst h; decide
    · intro hx; subst hx; exact absurd h (by decide)
  have hd2 : c ≠ 'n' := by
    rcases hc with h | h
    · subst h; decide
    · intro hx; subst hx; exact absurd h (by decide)
  have hd3 : c ≠ 't' := by
    rcases hc with h | h
    · subst h; decide
    · intro hx; subst hx; exact absurd h (by decide)
  have hd4 : c ≠ 'f' := by
    rcases hc with h | h
    · subst h; decide
    · intro hx; subst hx; exact absurd h (by decide)
  rw [hct]
  show parseValue (c :: (t ++ rest)) = _
  rw [parseValue_eq_parseNumber c _ hd1 hd2 hd3 hd4,
    show c :: (t ++ rest) = (c :: t) ++ rest from rfl, ← hct,
    parseNumber_print k s rest hr]
  rfl

theorem parseMembers_more (fuel : ℕ) (key : List Char) (v : JVal) (txt r₄ r₅ : List Char)
    (ms : List (List Char × JVal))
    (hv : parseValue txt = some (v, ',' :: r₄))
    (hm : parseMembers fuel r₄ = some (ms, r₅)) :
    parseMembers (fuel + 1) ('"' :: (escapeList key ++ '"' :: ':' :: txt))
      = some ((key, v) :: ms, r₅) := by
  simp only [parseMembers, if_true]
  rw [parseStrAux_escape key (':' :: txt)]
  simp only [if_true]
  rw [hv]
  simp only [if_true]
  rw [hm]

theorem parseMembers_last (fuel : ℕ) (key : List Char) (v : JVal) (txt r₄ : List Char)
    (hv : parseValue txt = some (v, rbrace :: r₄)) :
    parseMembers (fuel + 1) ('"' :: (escapeList key ++ '"' :: ':' :: txt))
      = some ([(key, v)], r₄) := by
  simp only [parseMembers, if_true]
  rw [parseStrAux_escape key (':' :: txt)]
  simp only [if_true]
  rw [hv]
  simp only [show (rbrace = ',') = False from by decide,
    show (rbrace = rbrace) = True from by decide, if_false, if_true]

theorem parseMembers_encode (fuel : ℕ) (hfuel : 4 ≤ fuel) (id : List Char) (tk vk rk : ℤ) :
    parseMembers fuel ('"' :: 'i' :: 'd' :: '"' :: ':' :: '"' ::
        (escapeList id ++ '"' :: ',' :: '"' :: 't' :: '"' :: ':' ::
          (printNum tk 1 ++ ',' :: '"' :: 'v' :: '"' :: ':' ::
            (printNum vk 3 ++ ',' :: '"' :: 'r' :: '"' :: ':' ::
              (printNum rk 0 ++ [rbrace])))))
      = some ([(idKey, JVal.jstr id),
               (tKey, JVal.jnum (numMant tk 1) (numScale tk 1)),
               (vKey, JVal.jnum (numMant vk 3) (numScale vk 3)),
               (rKey, JVal.jnum (numMant rk 0) (numScale rk 0))], []) := by
  obtain ⟨f, rfl⟩ : ∃ f, fuel = f + 4 := ⟨fuel - 4, by omega⟩
  have hrmem : parseMembers (f + 1) ('"' :: 'r' :: '"' :: ':' :: (printNum rk 0 ++ [rbrace]))
      = some ([(rKey, JVal.jnum (numMant rk 0) (numScale rk 0))], []) := by
    have hform : ('"' :: 'r' :: '"' :: ':' :: (printNum rk 0 ++ [rbrace]) : List Char)
        = '"' :: (escapeList rKey ++ '"' :: ':' :: (printNum rk 0 ++ [rbrace])) := by
      rw [show escapeList rKey = ['r'] from by decide]
      rfl
    rw [hform]
    exact parseMembers_last f rKey _ _ [] (parseValue_num rk 0 [rbrace] (by decide))
  have hvmem : parseMembers (f + 2) ('"' :: 'v' :: '"' :: ':' ::
        (printNum vk 3 ++ ',' :: '"' :: 'r' :: '"' :: ':' :: (printNum rk 0 ++ [rbrace])))
      = some ([(vKey, JVal.jnum (numMant vk 3) (numScale vk 3)),
               (rKey, JVal.jnum (numMant rk 0) (numScale rk 0))], []) := by
    have hform : ('"' :: 'v' :: '"' :: ':' ::
          (printNum vk 3 ++ ',' :: '"' :: 'r' :: '"' :: ':' :: (printNum rk 0 ++ [rbrace]))
          : List Char)
        = '"' :: (escapeList vKey ++ '"' :: ':' ::
            (printNum vk 3 ++ ',' :: '"' :: 'r' :: '"' :: ':' ::
              (printNum rk 0 ++ [rbrace]))) := by
      rw [show escapeList vKey = ['v'] from by decide]
      rfl
    rw [hform]
    exact parseMembers_more (f + 1) vKey _ _ _ _ _
      (parseValue_num vk 3 _ rfl) hrmem
  have htmem : parseMembers (f + 3) ('"' :: 't' :: '"' :: ':' ::
        (printNum tk 1 ++ ',' :: '"' :: 'v' :: '"' :: ':' ::
          (printNum vk 3 ++ ',' :: '"' :: 'r' :: '"' :: ':' :: (printNum rk 0 ++ [rbrace]))))
      = some ([(tKey, JVal.jnum (numMant tk 1) (numScale tk 1)),
               (vKey, JVal.jnum (numMant vk 3) (numScale vk 3)),
               (rKey, JVal.jnum (numMant rk 0) (numScale rk 0))], []) := by
    have hform : ('"' :: 't' :: '"' :: ':' ::
          (printNum tk 1 ++ ',' :: '"' :: 'v' :: '"' :: ':' ::
            (printNum vk 3 ++ ',' :: '"' :: 'r' :: '"' :: ':' ::
              (printNum rk 0 ++ [rbrace]))) : List Char)
        = '"' :: (escapeList tKey ++ '"' :: ':' ::
            (printNum tk 1 ++ ',' :: '"' :: 'v' :: '"' :: ':' ::
              (printNum vk 3 ++ ',' :: '"' :: 'r' :: '"' :: ':' ::
                (printNum rk 0 ++ [rbrace])))) := by
      rw [show escapeList tKey = ['t'] from by decide]
      rfl
    rw [hform]
    exact parseMembers_more (f + 2) tKey _ _ _ _ _
      (parseValue_num tk 1 _ rfl) hvmem
  show parseMembers (f + 3 + 1) ('"' :: ('i' :: 'd' :: '"' :: ':' :: '"' ::
      (escapeList id ++ '"' :: ',' :: '"' :: 't' :: '"' :: ':' ::
        (printNum tk 1 ++ ',' :: '"' :: 'v' :: '"' :: ':' ::
          (printNum vk 3 ++ ',' :: '"' :: 'r' :: '"' :: ':' ::
            (printNum rk 0 ++ [rbrace])))))) = _
  have hform : ('i' :: 'd' :: '"' :: ':' :: '"' ::
        (escapeList id ++ '"' :: ',' :: '"' :: 't' :: '"' :: ':' ::
          (printNum tk 1 ++ ',' :: '"' :: 'v' :: '"' :: ':' ::
            (printNum vk 3 ++ ',' :: '"' :: 'r' :: '"' :: ':' ::
              (printNum rk 0 ++ [rbrace])))) : List Char)
      = escapeList idKey ++ '"' :: ':' :: ('"' ::
          (escapeList id ++ '"' :: ',' :: '"' :: 't' :: '"' :: ':' ::
            (printNum tk 1 ++ ',' :: '"' :: 'v' :: '"' :: ':' ::
              (printNum vk 3 ++ ',' :: '"' :: 'r' :: '"' :: ':' ::
                (printNum rk 0 ++ [rbrace]))))) := by
    rw [show escapeList idKey = ['i', 'd'] from by decide]
    rfl
  rw [hform]
  exact parseMembers_more (f + 3) idKey _ _ _ _ _
    (parseValue_string id _) htmem

theorem mk_toList (s : String) : String.mk s.toList = s := rfl

theorem parseJson_encode (rd : CompactReading) :
    parseJson (encodeCompact rd)
      = some [(idKey, JVal.jstr rd.id.toList),
              (tKey, JVal.jnum (numMant (roundAway (rd.t * 10)) 1)
                (numScale (roundAway (rd.t * 10)) 1)),
              (vKey, JVal.jnum (numMant (roundAway (rd.v * 1000)) 3)
                (numScale (roundAway (rd.v * 1000)) 3)),
              (rKey, JVal.jnum (numMant rd.r 0) (numScale rd.r 0))] := by
  have hL : (encodeCompact rd).toList
      = lbrace :: '"' :: 'i' :: 'd' :: '"' :: ':' :: '"' ::
          (escapeList rd.id.toList ++ '"' :: ',' :: '"' :: 't' :: '"' :: ':' ::
            (printNum (roundAway (rd.t * 10)) 1 ++ ',' :: '"' :: 'v' :: '"' :: ':' ::
              (printNum (roundAway (rd.v * 1000)) 3 ++ ',' :: '"' :: 'r' :: '"' :: ':' ::
                (printNum rd.r 0 ++ [rbrace])))) := rfl
  have hlen : 4 ≤ (('"' :: 'i' :: 'd' :: '"' :: ':' :: '"' ::
          (escapeList rd.id.toList ++ '"' :: ',' :: '"' :: 't' :: '"' :: ':' ::
            (printNum (roundAway (rd.t * 10)) 1 ++ ',' :: '"' :: 'v' :: '"' :: ':' ::
              (printNum (roundAway (rd.v * 1000)) 3 ++ ',' :: '"' :: 'r' :: '"' :: ':' ::
                (printNum rd.r 0 ++ [rbrace]))))) : List Char).length := by
    simp only [List.length_cons]
    omega
  simp only [parseJson, hL, if_true]
  rw [if_neg (by decide : ¬('"' : Char) = rbrace)]
  rw [parseMembers_encode _ hlen rd.id.toList
    (roundAway (rd.t * 10)) (roundAway (rd.v * 1000)) rd.r]
  simp

theorem gatewayDecode_encode (rd : CompactReading) :
    gatewayDecode (encodeCompact rd)
      = Except.ok { id := rd.id, t := roundTemp rd.t, v := roundVib rd.v, r := rd.r } := by
  simp only [gatewayDecode, parseJson_encode rd, getString, getFloat, getInt, lookupMember,
    show (idKey = idKey) = True from by decide, show (idKey = tKey) = False from by decide,
    show (tKey = tKey) = True from by decide, show (idKey = vKey) = False from by decide,
    show (tKey = vKey) = False from by decide, show (vKey = vKey) = True from by decide,
    show (idKey = rKey) = False from by decide, show (tKey = rKey) = False from by decide,
    show (vKey = rKey) = False from by decide, show (rKey = rKey) = True from by decide,
    if_true, if_false]
  rw [mk_toList]
  obtain ⟨hrm, hrs⟩ := numMant_zero rd.r
  refine congrArg Except.ok ?_
  rw [CompactReading.mk.injEq]
  refine ⟨rfl, ?_, ?_, ?_⟩
  · rw [numMant_ratio (roundAway (rd.t * 10)) 1, roundTemp, pow_one]
  · rw [numMant_ratio (roundAway (rd.v * 1000)) 3, roundVib]
    norm_num
  · rw [hrm, hrs, pow_zero, Int.tdiv_one]

theorem abs_roundAway_sub (q : ℚ) : |(roundAway q : ℚ) - q| ≤ 1 / 2 := by
  unfold roundAway
  by_cases h : q < 0
  · rw [if_pos h]
    have h2 : ((-round (-q) : ℤ) : ℚ) - q = (-q) - ((round (-q) : ℤ) : ℚ) := by
      push_cast
      ring
    rw [h2]
    exact abs_sub_round (-q)
  · rw [if_neg h]
    have h2 : ((round q : ℤ) : ℚ) - q = -(q - ((round q : ℤ) : ℚ)) := by ring
    rw [h2, abs_neg]
    exact abs_sub_round q

theorem abs_roundTemp_sub (t : ℚ) : |roundTemp t - t| ≤ 1 / 20 := by
  have h := abs_roundAway_sub (t * 10)
  unfold roundTemp
  have h2 : (roundAway (t * 10) : ℚ) / 10 - t = ((roundAway (t * 10) : ℚ) - t * 10) / 10 := by
    ring
  rw [h2, abs_div, show |(10 : ℚ)| = 10 from by norm_num]
  linarith

theorem abs_roundVib_sub (v : ℚ) : |roundVib v - v| ≤ 1 / 2000 := by
  have h := abs_roundAway_sub (v * 1000)
  unfold roundVib
  have h2 : (roundAway (v * 1000) : ℚ) / 1000 - v
      = ((roundAway (v * 1000) : ℚ) - v * 1000) / 1000 := by
    ring
  rw [h2, abs_div, show |(1000 : ℚ)| = 1000 from by norm_num]
  linarith

theorem roundAway_intCast (k : ℤ) : roundAway ((k : ℚ)) = k := by
  unfold roundAway
  by_cases h : (k : ℚ) < 0
  · rw [if_pos h, ← Int.cast_neg, round_intCast, neg_neg]
  · rw [if_neg h, round_intCast]

theorem roundTemp_scaled (t : ℚ) : roundAway (roundTemp t * 10) = roundAway (t * 10) := by
  have h : roundTemp t * 10 = ((roundAway (t * 10) : ℤ) : ℚ) := by
    unfold roundTemp
    field_simp
  rw [h, roundAway_intCast]

theorem roundVib_scaled (v : ℚ) : roundAway (roundVib v * 1000) = roundAway (v * 1000) := by
  have h : roundVib v * 1000 = ((roundAway (v * 1000) : ℤ) : ℚ) := by
    unfold roundVib
    field_simp
  rw [h, roundAway_intCast]

theorem encode_sample : encodeCompact sampleReading = samplePayload := by
  have h1 : roundAway (sampleReading.t * 10) = 673 := by
    have ht : sampleReading.t * 10 = ((673 : ℤ) : ℚ) := by
      show (673 / 10 : ℚ) * 10 = ((673 : ℤ) : ℚ)
      push_cast
      norm_num
    rw [ht, roundAway_intCast]
  have h2 : roundAway (sampleReading.v * 1000) = 12 := by
    have hv : sampleReading.v * 1000 = ((12 : ℤ) : ℚ) := by
      show (3 / 250 : ℚ) * 1000 = ((12 : ℤ) : ℚ)
      push_cast
      norm_num
    rw [hv, roundAway_intCast]
  show String.mk (buildPayloadList sampleReading.id.toList (roundAway (sampleReading.t * 10))
    (roundAway (sampleReading.v * 1000)) sampleReading.r) = samplePayload
  rw [h1, h2]
  decide

theorem decode_sample :
    gatewayDecode samplePayload
      = Except.ok { id := "lathe_01", t := 673 / 10, v := 3 / 250, r := 3200 } := by
  have hp : parseJson samplePayload
      = some [(idKey, JVal.jstr "lathe_01".toList), (tKey, JVal.jnum 673 1),
              (vKey, JVal.jnum 12 3), (rKey, JVal.jnum 3200 0)] := by decide
  have hs : getString [(idKey, JVal.jstr "lathe_01".toList), (tKey, JVal.jnum 673 1),
      (vKey, JVal.jnum 12 3), (rKey, JVal.jnum 3200 0)] idKey = some "lathe_01" := by decide
  simp only [gatewayDecode, hp, hs]
  refine congrArg Except.ok ?_
  rw [CompactReading.mk.injEq]
  refine ⟨rfl, ?_, ?_, ?_⟩
  · simp only [getFloat,
      show lookupMember [(idKey, JVal.jstr "lathe_01".toList), (tKey, JVal.jnum 673 1),
        (vKey, JVal.jnum 12 3), (rKey, JVal.jnum 3200 0)] tKey
        = some (JVal.jnum 673 1) from by decide]
    norm_num
  · simp only [getFloat,
      show lookupMember [(idKey, JVal.jstr "lathe_01".toList), (tKey, JVal.jnum 673 1),
        (vKey, JVal.jnum 12 3), (rKey, JVal.jnum 3200 0)] vKey
        = some (JVal.jnum 12 3) from by decide]
    norm_num
  · simp only [getInt,
      show lookupMember [(idKey, JVal.jstr "lathe_01".toList), (tKey, JVal.jnum 673 1),
        (vKey, JVal.jnum 12 3), (rKey, JVal.jnum 3200 0)] rKey
        = some (JVal.jnum 3200 0) from by decide]
    decide

theorem handle_sample (nowMs : ℕ) :
    handleLoRaPacket samplePayload (-45) (19 / 2) nowMs
      = some ("factory/lathe_01",
          { machine_id := "lathe_01", timestamp := nowMs / 1000, temperature := 673 / 10,
            vibration := 3 / 250, rpm := 3200, rssi := -45, snr := 19 / 2 }) := by
  simp only [handleLoRaPacket, decode_sample, enrich]
  rw [show topicOf "lathe_01" = "factory/lathe_01" from by decide]

theorem decode_empty :
    gatewayDecode emptyIdPayload
      = Except.ok { id := "", t := 673 / 10, v := 3 / 250, r := 3200 } := by
  have hp : parseJson emptyIdPayload
      = some [(idKey, JVal.jstr []), (tKey, JVal.jnum 673 1),
              (vKey, JVal.jnum 12 3), (rKey, JVal.jnum 3200 0)] := by decide
  have hs : getString [(idKey, JVal.jstr []), (tKey, JVal.jnum 673 1),
      (vKey, JVal.jnum 12 3), (rKey, JVal.jnum 3200 0)] idKey = some "" := by decide
  simp only [gatewayDecode, hp, hs]
  refine congrArg Except.ok ?_
  rw [CompactReading.mk.injEq]
  refine ⟨rfl, ?_, ?_, ?_⟩
  · simp only [getFloat,
      show lookupMember [(idKey, JVal.jstr []), (tKey, JVal.jnum 673 1),
        (vKey, JVal.jnum 12 3), (rKey, JVal.jnum 3200 0)] tKey
        = some (JVal.jnum 673 1) from by decide]
    norm_num
  · simp only [getFloat,
      show lookupMember [(idKey, JVal.jstr []), (tKey, JVal.jnum 673 1),
        (vKey, JVal.jnum 12 3), (rKey, JVal.jnum 3200 0)] vKey
        = some (JVal.jnum 12 3) from by decide]
    norm_num
  · simp only [getInt,
      show lookupMember [(idKey, JVal.jstr []), (tKey, JVal.jnum 673 1),
        (vKey, JVal.jnum 12 3), (rKey, JVal.jnum 3200 0)] rKey
        = some (JVal.jnum 3200 0) from by decide]
    decide

/-- Claim C1: for every CompactReading whose serialization fits the node's
128-byte payload buffer, the gateway-side parse of the node-encoded bytes
recovers the identity and rpm exactly and the temperature and vibration as
their rounded values, which lie within half an ulp (1/20 resp. 1/2000) of
the originals. -/
theorem claim1_roundtrip (rd : CompactReading) (h : (encodeCompact rd).length ≤ 127) :
    gatewayDecode (encodeCompact rd)
      = Except.ok { id := rd.id, t := roundTemp rd.t, v := roundVib rd.v, r := rd.r } ∧
    |roundTemp rd.t - rd.t| ≤ 1 / 20 ∧ |roundVib rd.v - rd.v| ≤ 1 / 2000 :=
  ⟨gatewayDecode_encode rd, abs_roundTemp_sub rd.t, abs_roundVib_sub rd.v⟩

/-- Witness for C1 at the spec's sample reading. -/
theorem claim1_witness :
    (encodeCompact sampleReading).length ≤ 127 ∧
    (gatewayDecode (encodeCompact sampleReading)
      = Except.ok
          { id := sampleReading.id, t := roundTemp sampleReading.t,
            v := roundVib sampleReading.v, r := sampleReading.r } ∧
     |roundTemp sampleReading.t - sampleReading.t| ≤ 1 / 20 ∧
     |roundVib sampleReading.v - sampleReading.v| ≤ 1 / 2000) := by
  have h : (encodeCompact sampleReading).length ≤ 127 := by
    rw [encode_sample]
    decide
  exact ⟨h, claim1_roundtrip sampleReading h⟩

/-- Claim C2: the compact bytes of the spec's end-to-end scenario, received
with rssi −45 and snr 9.5, are decoded and enriched into exactly the
canonical reading the spec lists, with timestamp taken from the gateway's
own clock (millis() / 1000) at handling time. -/
theorem claim2_end_to_end (nowMs : ℕ) :
    handleLoRaPacket samplePayload (-45) (19 / 2) nowMs
      = some ("factory/lathe_01",
          { machine_id := "lathe_01", timestamp := nowMs / 1000, temperature := 673 / 10,
            vibration := 3 / 250, rpm := 3200, rssi := -45, snr := 19 / 2 }) :=
  handle_sample nowMs

/-- Counterexample to C3 as stated: a payload whose identity field is the
empty string is not rejected as MissingIdentity — the gateway decodes it
and publishes a canonical reading with empty machine_id to topic
"factory/". -/
theorem claim3_counterexample :
    gatewayDecode emptyIdPayload
      = Except.ok { id := "", t := 673 / 10, v := 3 / 250, r := 3200 } ∧
    handleLoRaPacket emptyIdPayload (-45) (19 / 2) 0
      = some ("factory/",
          { machine_id := "", timestamp := 0, temperature := 673 / 10,
            vibration := 3 / 250, rpm := 3200, rssi := -45, snr := 19 / 2 }) := by
  refine ⟨decode_empty, ?_⟩
  simp only [handleLoRaPacket, decode_empty, enrich]
  rw [show topicOf "" = "factory/" from by decide]

/-- Claim C3 (amended): the gateway's decode step fails with
MalformedPayload on syntactically invalid bytes and with MissingIdentity
when the identity field is absent, null, or not a string; an identity
equal to the empty string is accepted and published.  In every failure
case the packet is discarded with no publish call, and the receive loop
still processes the next well-formed packet. -/
theorem claim3_error_handling :
    (∀ (p : String) (rssi : ℤ) (snr : ℚ) (now : ℕ), parseJson p = none →
      gatewayDecode p = Except.error DecodeError.MalformedPayload ∧
      handleLoRaPacket p rssi snr now = none) ∧
    (∀ (p : String) (ms : List (List Char × JVal)) (rssi : ℤ) (snr : ℚ) (now : ℕ),
      parseJson p = some ms → getString ms idKey = none →
      gatewayDecode p = Except.error DecodeError.MissingIdentity ∧
      handleLoRaPacket p rssi snr now = none) ∧
    (∀ (published : List (String × CanonicalReading)) (pBad pGood : String)
      (rssi : ℤ) (snr : ℚ) (now : ℕ) (pub : String × CanonicalReading),
      handleLoRaPacket pBad rssi snr now = none →
      handleLoRaPacket pGood rssi snr now = some pub →
      runLoop { connected := true, published := published }
          [pktInput (some pBad) rssi snr now, pktInput (some pGood) rssi snr now]
        = { connected := true, published := published ++ [pub] }) := by
  refine ⟨?_, ?_, ?_⟩
  · intro p rssi snr now hp
    constructor
    · simp [gatewayDecode, hp]
    · simp [handleLoRaPacket, gatewayDecode, hp]
  · intro p ms rssi snr now hp hid
    constructor
    · simp [gatewayDecode, hp, hid]
    · simp [handleLoRaPacket, gatewayDecode, hp, hid]
  · intro published pBad pGood rssi snr now pub hbad hgood
    simp [runLoop, loopIter, handlePkt, pktInput, hbad, hgood]

/-- Witness for C3 (amended) at the spec's missing-identity scenario and
at a non-JSON byte sequence. -/
theorem claim3_witness :
    (gatewayDecode missingIdPayload = Except.error DecodeError.MissingIdentity ∧
     handleLoRaPacket missingIdPayload (-45) (19 / 2) 0 = none) ∧
    (gatewayDecode "not json" = Except.error DecodeError.MalformedPayload ∧
     handleLoRaPacket "not json" (-45) (19 / 2) 0 = none) :=
  ⟨claim3_error_handling.2.1 missingIdPayload
      [(tKey, JVal.jnum 673 1), (vKey, JVal.jnum 12 3), (rKey, JVal.jnum 3200 0)]
      (-45) (19 / 2) 0 (by decide) (by decide),
   claim3_error_handling.1 "not json" (-45) (19 / 2) 0 (by decide)⟩

/-- Claim C4: in the gateway's delivery state machine, packet handling
(the only publish site) always runs on a Connected state; packets that
arrive while the loop is blocked reconnecting are dropped, not queued
(they have no effect on the session state, and while every connect
attempt fails nothing is ever published); once a connect attempt
succeeds, the next polled reading is published. -/
theorem claim4_disconnect_drop :
    (∀ (st : GwState) (inp : LoopInput) (st' : GwState), loopIter st inp = some st' →
      st' = handlePkt { st with connected := true } inp) ∧
    (∀ (st : GwState) (inp : LoopInput),
      loopIter st inp = loopIter st { inp with missed := [] }) ∧
    (∀ (st : GwState) (inp : LoopInput) (rest : List LoopInput),
      (st.connected && inp.stillUp) = false → connectRetries inp.attempts = false →
      runLoop st (inp :: rest) = st) ∧
    (∀ (st : GwState) (inp : LoopInput) (p : String) (pub : String × CanonicalReading),
      (st.connected && inp.stillUp) = false → connectRetries inp.attempts = true →
      inp.pkt = some p → handleLoRaPacket p inp.rssi inp.snr inp.nowMs = some pub →
      loopIter st inp = some { connected := true, published := st.published ++ [pub] }) := by
  refine ⟨?_, ?_, ?_, ?_⟩
  · intro st inp st' h
    unfold loopIter at h
    by_cases h1 : (st.connected && inp.stillUp) = true
    · rw [if_pos h1] at h
      exact (Option.some.inj h).symm
    · rw [if_neg h1] at h
      by_cases h2 : connectRetries inp.attempts = true
      · rw [if_pos h2] at h
        exact (Option.some.inj h).symm
      · rw [if_neg h2] at h
        cases h
  · intro st inp
    rfl
  · intro st inp rest h1 h2
    unfold runLoop
    have hnone : loopIter st inp = none := by
      unfold loopIter
      rw [if_neg (by simp [h1]), if_neg (by simp [h2])]
    rw [hnone]
  · intro st inp p pub h1 h2 h3 h4
    unfold loopIter
    rw [if_neg (by simp [h1]), if_pos h2]
    unfold handlePkt
    rw [h3]
    simp only [h4]

/-- Witness for C4: from a disconnected state, with the second connect
attempt succeeding, the sample packet polled after reconnection is
published. -/
theorem claim4_witness :
    loopIter { connected := false, published := [] } reconnectInput
      = some
          { connected := true,
            published := [("factory/lathe_01",
              { machine_id := "lathe_01", timestamp := 12, temperature := 673 / 10,
                vibration := 3 / 250, rpm := 3200, rssi := -45, snr := 19 / 2 })] } :=
  claim4_disconnect_drop.2.2.2 { connected := false, published := [] } reconnectInput
    samplePayload _ (by decide) (by decide) rfl (handle_sample 12000)

/-- Counterexample to C5 as stated: the configured prefix constant is
"factory/", and the gateway concatenates it directly with the machine
identity; appending an extra "/" as the claim's formula prescribes would
give "factory//lathe_01", which is not the derived topic. -/
theorem claim5_counterexample :
    topicOf "lathe_01" = "factory/lathe_01" ∧
    topicRootCfg ++ "/" ++ "lathe_01" = "factory//lathe_01" ∧
    topicOf "lathe_01" ≠ topicRootCfg ++ "/" ++ "lathe_01" := by
  refine ⟨by decide, by decide, by decide⟩

/-- Claim C5 (amended): the topic is the configured prefix — which itself
ends in the separator: "factory/" — concatenated directly with the
machine identity taken verbatim, whenever the result fits the 64-byte
topic buffer; with machine_id "lathe_01" the topic is exactly
"factory/lathe_01". -/
theorem claim5_topic_derivation :
    (∀ id : String, (topicRootCfg ++ id).length ≤ 63 → topicOf id = topicRootCfg ++ id) ∧
    topicOf "lathe_01" = "factory/lathe_01" := by
  constructor
  · intro id h
    have h' : ((topicRootCfg ++ id).toList).length ≤ 63 := h
    unfold topicOf
    rw [List.take_of_length_le h']
    exact mk_toList _
  · decide

/-- Witness for C5 (amended) at machine_id "lathe_01". -/
theorem claim5_witness : topicOf "lathe_01" = topicRootCfg ++ "lathe_01" :=
  claim5_topic_derivation.1 "lathe_01" (by decide)

/-- Counterexample to C6 as stated: while the upstream connection is down
and every reconnect attempt fails, a well-formed packet (the spec's
sample payload, which decodes successfully) arrives but is never
received or processed — the session state never changes and nothing is
ever published, refuting independent progress of the reception loop. -/
theorem claim6_counterexample :
    handleLoRaPacket samplePayload (-45) (19 / 2) 12000 ≠ none ∧
    runLoop { connected := false, published := [] } [blockedInput, blockedInput]
      = { connected := false, published := [] } := by
  constructor
  · rw [handle_sample]
    simp
  · simp [runLoop, loopIter, blockedInput, connectRetries]

/-- Claim C6 (amended): the gateway is single-threaded and `loop()` calls
`reconnectMQTT`, which blocks with a fixed 5-second backoff until a
connect attempt succeeds; while it blocks, the radio is never polled, so
packets arriving during a failing reconnection are lost, and reception
resumes only once an attempt succeeds. -/
theorem claim6_reconnect_blocks :
    (∀ (st : GwState) (inp : LoopInput) (rest : List LoopInput),
      (st.connected && inp.stillUp) = false → connectRetries inp.attempts = false →
      runLoop st (inp :: rest) = st) ∧
    (∀ (st : GwState) (inp : LoopInput) (p : String) (pub : String × CanonicalReading),
      connectRetries inp.attempts = true → inp.pkt = some p →
      handleLoRaPacket p inp.rssi inp.snr inp.nowMs = some pub →
      loopIter st inp = some { connected := true, published := st.published ++ [pub] }) := by
  constructor
  · intro st inp rest h1 h2
    unfold runLoop
    have hnone : loopIter st inp = none := by
      unfold loopIter
      rw [if_neg (by simp [h1]), if_neg (by simp [h2])]
    rw [hnone]
  · intro st inp p pub h1 h2 h3
    unfold loopIter
    by_cases hc : (st.connected && inp.stillUp) = true
    · rw [if_pos hc]
      unfold handlePkt
      rw [h2]
      simp only [h3]
    · rw [if_neg hc, if_pos h1]
      unfold handlePkt
      rw [h2]
      simp only [h3]

/-- Witness for C6 (amended): a blocked iteration freezes the state. -/
theorem claim6_witness :
    runLoop { connected := false, published := [] } [blockedInput]
      = { connected := false, published := [] } :=
  claim6_reconnect_blocks.1 { connected := false, published := [] } blockedInput []
    (by decide) (by decide)

/-- Claim C7: before encoding, the node rounds temperature to exactly one
decimal (a multiple of 1/10 within 1/20 of the sample) and vibration to
exactly three decimals (a multiple of 1/1000 within 1/2000 of the
sample), and the encoded payload depends only on these rounded values. -/
theorem claim7_fixed_precision (rd : CompactReading) :
    encodeCompact rd = encodeCompact { rd with t := roundTemp rd.t, v := roundVib rd.v } ∧
    (∃ k : ℤ, roundTemp rd.t = (k : ℚ) / 10) ∧ |roundTemp rd.t - rd.t| ≤ 1 / 20 ∧
    (∃ m : ℤ, roundVib rd.v = (m : ℚ) / 1000) ∧ |roundVib rd.v - rd.v| ≤ 1 / 2000 := by
  refine ⟨?_, ⟨roundAway (rd.t * 10), rfl⟩, abs_roundTemp_sub rd.t,
    ⟨roundAway (rd.v * 1000), rfl⟩, abs_roundVib_sub rd.v⟩
  unfold encodeCompact
  simp only [roundTemp_scaled, roundVib_scaled]

/-- Claim C8: when radio initialization fails, the node's boot performs a
full restart and nothing else — no sampling, no encoding, no
transmission occur in that boot cycle. -/
theorem claim8_radio_init_failure (t v : ℚ) (r : ℤ) (sendOk : Bool) :
    nodeBoot false t v r sendOk = ([NodeAction.restart], none) ∧
    NodeAction.sample ∉ (nodeBoot false t v r sendOk).1 ∧
    NodeAction.encode ∉ (nodeBoot false t v r sendOk).1 ∧
    NodeAction.transmit ∉ (nodeBoot false t v r sendOk).1 := by
  refine ⟨rfl, ?_, ?_, ?_⟩ <;> simp [nodeBoot]

/-- Claim C9: a syntactically valid payload whose identity field is a
string (the gateway's non-null check) is not discarded even when numeric
fields are missing: the published canonical reading carries the parsed
values, and each missing field defaults to zero. -/
theorem claim9_missing_fields_default_zero (p : String) (rssi : ℤ) (snr : ℚ) (now : ℕ)
    (ms : List (List Char × JVal)) (mid : String)
    (hp : parseJson p = some ms) (hid : getString ms idKey = some mid) :
    handleLoRaPacket p rssi snr now
      = some (topicOf mid,
          { machine_id := mid, timestamp := now / 1000, temperature := getFloat ms tKey,
            vibration := getFloat ms vKey, rpm := getInt ms rKey, rssi := rssi, snr := snr }) ∧
    (lookupMember ms tKey = none → getFloat ms tKey = 0) ∧
    (lookupMember ms vKey = none → getFloat ms vKey = 0) ∧
    (lookupMember ms rKey = none → getInt ms rKey = 0) := by
  refine ⟨?_, ?_, ?_, ?_⟩
  · simp [handleLoRaPacket, gatewayDecode, hp, hid, enrich]
  · intro h
    simp [getFloat, h]
  · intro h
    simp [getFloat, h]
  · intro h
    simp [getInt, h]

/-- Witness for C9: a valid payload with only an identity is published
with all numeric fields zero. -/
theorem claim9_witness :
    handleLoRaPacket bareIdPayload 0 0 0
      = some ("factory/x",
          { machine_id := "x", timestamp := 0, temperature := 0, vibration := 0, rpm := 0,
            rssi := 0, snr := 0 }) := by
  have h := claim9_missing_fields_default_zero bareIdPayload 0 0 0
    [(idKey, JVal.jstr ['x'])] "x" (by decide) (by decide)
  rw [h.1, h.2.1 (by decide), h.2.2.1 (by decide), h.2.2.2 (by decide),
    show topicOf "x" = "factory/x" from by decide]

/-- Claim C10: the derived topic never exceeds 63 characters, and for any
machine identity that would overflow the 64-byte snprintf buffer the
topic is the silently truncated 63-character prefix, not the full
concatenation. -/
theorem claim10_topic_truncation (id : String) :
    (topicOf id).length ≤ 63 ∧
    ((topicRootCfg ++ id).length > 63 →
      topicOf id = String.mk ((topicRootCfg ++ id).toList.take 63) ∧
      topicOf id ≠ topicRootCfg ++ id) := by
  have hlen : (topicOf id).length = min 63 (topicRootCfg ++ id).length := by
    show ((topicRootCfg ++ id).toList.take 63).length = _
    rw [List.length_take]
    rfl
  constructor
  · omega
  · intro h
    refine ⟨rfl, ?_⟩
    intro hcontra
    have hlen2 : (topicOf id).length = (topicRootCfg ++ id).length := by rw [hcontra]
    omega

/-- Witness for C10 at a 60-character machine identity. -/
theorem claim10_witness :
    (topicOf longId).length ≤ 63 ∧
    topicOf longId = String.mk ((topicRootCfg ++ longId).toList.take 63) ∧
    topicOf longId ≠ topicRootCfg ++ longId :=
  ⟨(claim10_topic_truncation longId).1, (claim10_topic_truncation longId).2 (by decide)⟩

end IndustrialMonitor
